import Mathlib

/-
  Verification of the notification scheduler in src/server.js.

  The repository contains three evolutions (variants) of one Express server:
  variant 1 (lines 1-180), variant 2 (lines 181-387), variant 3 (lines 388-620).
  All share the same architecture: a schedules store and a history store, a
  background setInterval loop that scans all schedules and dispatches the due,
  unsent ones, a sendNotification helper wrapping the push provider, and CRUD
  routes.

  Shallow embedding conventions:
  - Calendar/time. The JS Date value is an epoch-milliseconds number. We model
    an instant as a Nat counting milliseconds since 0000-03-01T00:00:00Z
    (proleptic Gregorian); Unix epoch and this base differ by a fixed constant,
    and every comparison or equality in the claims is shift-invariant. A parsed
    ISO-8601 date-time is a DateFields record (calendar fields plus UTC offset
    in minutes); epochMillis models the ECMAScript date parse (MakeDay/MakeTime
    minus the offset), and toISOString models Date.prototype.toISOString, whose
    ECMAScript definition takes the greatest year whose start is at most t
    (YearFromTime) - modeled by the bounded search yoeSearch - and then month
    and day within the year. The embedding covers instants from 0000-03-01 on,
    which contains every date the system can be used with.
  - Stores. Firebase collections are association lists List (String x _);
    child(id).set / update with a full object is setKey, child(id).remove is
    removeId, once("value") is the list itself.
  - Fallible I/O. Outcomes of external calls are injected as parameters:
    the provider send result is an Option String (some messageId on success,
    none when the call throws), store writes get Bool success flags where a
    claim is about their failure.
  - sendNotification catches every error internally (src/server.js:75-77,
    252-254, 465-467), logs it and returns undefined; this is modeled by
    returning none and appending no history entry on provider failure.
-/

set_option maxRecDepth 8000

/-! ## Time: ECMAScript date parse and toISOString (src/server.js:132, 522, 562, and 172-176, 604-608) -/

/-- Days from 0000-03-01 to the start of March-based year y (y counted from
year 0, March); 365 y plus the leap days among the first y such years. -/
def yearStartDays (y : Nat) : Nat := 365 * y + y / 4 - y / 100 + y / 400

/-- Day number of the civil date y-m-d (months 1..12, days 1..31) counted from
0000-03-01, via the standard 400-year-era decomposition; models the ECMAScript
MakeDay computation on the supported range. -/
def daysFromCivil (y m d : Nat) : Nat :=
  (y - (if m ≤ 2 then 1 else 0)) / 400 * 146097 +
    yearStartDays ((y - (if m ≤ 2 then 1 else 0)) % 400) +
    ((153 * (if 2 < m then m - 3 else m + 9) + 2) / 5 + d - 1)

/-- Greatest March-based year index at most b whose start is at most doe:
the search ECMAScript uses to define YearFromTime. -/
def yoeSearch (doe : Nat) : Nat → Nat
  | 0 => 0
  | y + 1 => if yearStartDays (y + 1) ≤ doe then y + 1 else yoeSearch doe y

/-- Year-of-era (0..399) of a day-of-era doe (0..146096). -/
def yoeOfDoe (doe : Nat) : Nat := yoeSearch doe 399

/-- Day within the March-based year. -/
def doyOfDoe (doe : Nat) : Nat := doe - yearStartDays (yoeOfDoe doe)

/-- March-based month index 0..11 (0 = March). -/
def mpOfDoe (doe : Nat) : Nat := (5 * doyOfDoe doe + 2) / 153

/-- Civil day of month 1..31. -/
def dayOfDoe (doe : Nat) : Nat := doyOfDoe doe - (153 * mpOfDoe doe + 2) / 5 + 1

/-- Civil month 1..12. -/
def monthOfDoe (doe : Nat) : Nat :=
  if mpOfDoe doe < 10 then mpOfDoe doe + 3 else mpOfDoe doe - 9

/-- Civil date (year, month, day) of a day number counted from 0000-03-01. -/
def civilFromDays (z : Nat) : Nat × Nat × Nat :=
  (yoeOfDoe (z % 146097) + z / 146097 * 400 +
      (if monthOfDoe (z % 146097) ≤ 2 then 1 else 0),
    monthOfDoe (z % 146097), dayOfDoe (z % 146097))

/-- A parsed ISO-8601 date-time: calendar fields plus the UTC offset (minutes)
the input was expressed in. An offset of 0 is the Z suffix. -/
structure DateFields where
  year : Nat
  month : Nat
  day : Nat
  hour : Nat
  minute : Nat
  second : Nat
  ms : Nat
  offsetMin : Int
  deriving DecidableEq

/-- Absolute instant (milliseconds since the 0000-03-01 base) denoted by parsed
ISO-8601 fields; models what new Date(string) yields for a valid input: the
calendar reading minus the offset. This is both the embedding of the parses in
src/server.js (lines 33, 132, 215, 420, 522, 562) and the reference ISO-8601
parser the specification compares them to. -/
def epochMillis (f : DateFields) : Int :=
  (daysFromCivil f.year f.month f.day : Int) * 86400000 +
    (f.hour : Int) * 3600000 + (f.minute : Int) * 60000 +
    (f.second : Int) * 1000 + (f.ms : Int) -
    f.offsetMin * 60000

/-- Fields of the UTC rendering of an instant: models
Date.prototype.toISOString (used at src/server.js:132, 522, 562). -/
def toISOString (t : Nat) : DateFields :=
  { year := (civilFromDays (t / 86400000)).1
    month := (civilFromDays (t / 86400000)).2.1
    day := (civilFromDays (t / 86400000)).2.2
    hour := t % 86400000 / 3600000
    minute := t % 3600000 / 60000
    second := t % 60000 / 1000
    ms := t % 1000
    offsetMin := 0 }

/-- Models getISTISOString (src/server.js:172-176 and 604-608): render
new Date(date.getTime() + 5.5 * 60 * 60 * 1000) with toISOString and replace
the Z suffix by +05:30, i.e. the UTC clock reading of t + 19800000 ms carrying
offset 330 minutes. -/
def getISTISOString (t : Nat) : DateFields :=
  { toISOString (t + 19800000) with offsetMin := 330 }

/-- Models new Date(x).toISOString() on a request time field: none when the
input cannot be parsed (new Date gives Invalid Date and toISOString throws a
RangeError, caught by the route) or when the instant falls outside the
embedded calendar range (before 0000-03-01). -/
def normalizeTime (x : Option DateFields) : Option DateFields :=
  match x with
  | none => none
  | some f => if 0 ≤ epochMillis f then some (toISOString (epochMillis f).toNat) else none

/-! ## Scheduler loop and dispatcher (src/server.js:23-49, 53-78, 204-230, 410-438, 442-468) -/

/-- A stored schedule as the loop reads it. The time field is the instant
new Date(task.time) yields for the stored time string (variants 1 and 3 store
a UTC ISO string, variant 2 stores the raw request string; the loop parses it
again every cycle). The image field exists in variant 3 records and is absent
(none) elsewhere. -/
structure TaskRec where
  title : String
  body : String
  topic : String
  image : Option String
  time : Int
  sent : Bool
  deriving DecidableEq

/-- The schedules collection as the loop snapshot sees it. -/
abbrev Store := List (String × TaskRec)

/-- Firebase update with sent set to true on one key (src/server.js:43, 224). -/
def markSent (s : Store) (id : String) : Store :=
  s.map fun e => if e.1 = id then (e.1, { e.2 with sent := true }) else e

/-- Firebase child(id).remove (src/server.js:432). -/
def removeId (s : Store) (id : String) : Store :=
  s.filter fun e => decide (e.1 ≠ id)

/-- History entry written by sendNotification in variant 1 (src/server.js:63-72);
the store key doubles as the id field, and timeIST is the derived display
rendering getISTISOString of timeUTC. -/
structure HistoryEntryV1 where
  title : String
  body : String
  topic : String
  timeUTC : Int
  type : String
  deriving DecidableEq

/-- History entry written by sendNotification in variant 3 (src/server.js:452-462),
which also records the image. -/
structure HistoryEntryV3 where
  title : String
  body : String
  topic : String
  image : Option String
  timeUTC : Int
  type : String
  deriving DecidableEq

/-- sendNotification, variant 1 (src/server.js:53-78): send via the provider;
on success append one history entry of type sent stamped with the current
instant and return the provider message id; any error is caught, logged and
swallowed, so the caller sees undefined (none) and no history is written.
providerResp injects the outcome of admin.messaging().send. -/
def sendNotificationV1 (providerResp : Option String) (now : Int)
    (title body : String) (topic : Option String) (h : List HistoryEntryV1) :
    Option String × List HistoryEntryV1 :=
  match providerResp with
  | none => (none, h)
  | some msgId => (some msgId, h ++ [⟨title, body, topic.getD "all", now, "sent"⟩])

/-- sendNotification, variant 3 (src/server.js:442-468): same as variant 1 plus
the image field. -/
def sendNotificationV3 (providerResp : Option String) (now : Int)
    (title body : String) (topic : Option String) (image : Option String)
    (h : List HistoryEntryV3) : Option String × List HistoryEntryV3 :=
  match providerResp with
  | none => (none, h)
  | some msgId =>
    (some msgId, h ++ [⟨title, body, topic.getD "all", image, now, "sent"⟩])

/-- Result of one cycle (or a run of cycles) of the background loop: the store
after the write-backs, the history log, and the ids for which the loop invoked
sendNotification (the dispatches). -/
structure CycleOut (H : Type) where
  store : Store
  hist : H
  dispatched : List String

/-- Body of the variant 1/2 setInterval callback (src/server.js:23-49 and
204-230), iterating over the snapshot list: for each task with sent false and
parsed time at most now, await sendNotification (whose failure is swallowed
inside it) and then unconditionally update sent to true on the live store.
p injects the provider outcome per task id for this cycle. -/
def cycleV1Go (p : String → Option String) (now : Int) :
    List (String × TaskRec) → Store → List HistoryEntryV1 →
    CycleOut (List HistoryEntryV1)
  | [], s, h => ⟨s, h, []⟩
  | (id, task) :: rest, s, h =>
    if task.sent = false ∧ task.time ≤ now then
      let out := cycleV1Go p now rest (markSent s id)
        (sendNotificationV1 (p id) now task.title task.body (some task.topic) h).2
      ⟨out.store, out.hist, id :: out.dispatched⟩
    else cycleV1Go p now rest s h

/-- One cycle of the variant 1/2 loop: the snapshot read at the start of the
cycle is the current store. -/
def cycleV1 (p : String → Option String) (now : Int) (s : Store)
    (h : List HistoryEntryV1) : CycleOut (List HistoryEntryV1) :=
  cycleV1Go p now s s h

/-- Body of the variant 3 setInterval callback (src/server.js:410-438): same
scan, but after dispatch the record is removed instead of flagged. -/
def cycleV3Go (p : String → Option String) (now : Int) :
    List (String × TaskRec) → Store → List HistoryEntryV3 →
    CycleOut (List HistoryEntryV3)
  | [], s, h => ⟨s, h, []⟩
  | (id, task) :: rest, s, h =>
    if task.sent = false ∧ task.time ≤ now then
      let out := cycleV3Go p now rest (removeId s id)
        (sendNotificationV3 (p id) now task.title task.body (some task.topic)
          task.image h).2
      ⟨out.store, out.hist, id :: out.dispatched⟩
    else cycleV3Go p now rest s h

/-- One cycle of the variant 3 loop. -/
def cycleV3 (p : String → Option String) (now : Int) (s : Store)
    (h : List HistoryEntryV3) : CycleOut (List HistoryEntryV3) :=
  cycleV3Go p now s s h

/-- Repeated cycles of the variant 1/2 loop; each cycle re-reads the store and
carries its own provider outcomes and captured now. -/
def runCyclesV1 : List ((String → Option String) × Int) → Store →
    List HistoryEntryV1 → CycleOut (List HistoryEntryV1)
  | [], s, h => ⟨s, h, []⟩
  | (p, now) :: cs, s, h =>
    let c := cycleV1 p now s h
    let out := runCyclesV1 cs c.store c.hist
    ⟨out.store, out.hist, c.dispatched ++ out.dispatched⟩

/-- Repeated cycles of the variant 3 loop. -/
def runCyclesV3 : List ((String → Option String) × Int) → Store →
    List HistoryEntryV3 → CycleOut (List HistoryEntryV3)
  | [], s, h => ⟨s, h, []⟩
  | (p, now) :: cs, s, h =>
    let c := cycleV3 p now s h
    let out := runCyclesV3 cs c.store c.hist
    ⟨out.store, out.hist, c.dispatched ++ out.dispatched⟩

/-! ## Request API (src/server.js:84-92, 128-166, 317-332, 345-383, 475-483, 517-540, 558-597) -/

/-- HTTP-level envelope: status code and the success flag of the JSON body. -/
structure ApiResp where
  status : Nat
  success : Bool
  deriving DecidableEq

/-- Response of POST /send-notification: envelope plus the provider response
field it echoes (none when sendNotification returned undefined). -/
structure SendResp where
  status : Nat
  success : Bool
  response : Option String
  deriving DecidableEq

/-- POST /send-notification, variant 1 (src/server.js:84-92): await
sendNotification and answer success true with its return value. The catch arm
returning 500 is unreachable for provider errors because sendNotification
never throws. -/
def postSendNotificationV1 (providerResp : Option String) (now : Int)
    (title body : String) (topic : Option String) (h : List HistoryEntryV1) :
    SendResp × List HistoryEntryV1 :=
  ((⟨200, true, (sendNotificationV1 providerResp now title body topic h).1⟩ : SendResp),
    (sendNotificationV1 providerResp now title body topic h).2)

/-- Key membership in a Firebase-like collection. -/
def hasKey {α : Type} (s : List (String × α)) (id : String) : Bool :=
  s.any fun e => decide (e.1 = id)

/-- Firebase child(id).set with a full record (also child(id).update with a
full record, which coincides with set because the records carry every field):
replace the value under the key, or create the key. -/
def setKey {α : Type} (s : List (String × α)) (id : String) (v : α) :
    List (String × α) :=
  if hasKey s id then s.map fun e => if e.1 = id then (id, v) else e
  else s ++ [(id, v)]

/-- Stored schedule record of variant 1 POST /schedule (src/server.js:138-145):
time holds the normalized UTC fields. -/
structure RecV1 where
  id : String
  title : String
  body : String
  topic : String
  time : DateFields
  sent : Bool
  deriving DecidableEq

abbrev StoreV1 := List (String × RecV1)

/-- History entry appended by variant 1 POST /schedule (src/server.js:151-160). -/
structure SchedHistoryV1 where
  title : String
  body : String
  topic : String
  timeUTC : DateFields
  timeIST : DateFields
  type : String
  deriving DecidableEq

/-- POST /schedule, variant 1 (src/server.js:128-166): normalize the time with
new Date(time).toISOString (a parse failure throws and the catch answers 400),
write the schedule record, then append the scheduled history entry; any error
reaches the same catch and answers 400. schedOk and histOk inject the store
write outcomes; id injects the generated push key. The response carries the
created schedule. -/
def postScheduleV1 (schedOk histOk : Bool) (id : String) (title body : String)
    (topic : Option String) (time : Option DateFields)
    (s : StoreV1) (h : List SchedHistoryV1) :
    (ApiResp × Option RecV1) × StoreV1 × List SchedHistoryV1 :=
  match normalizeTime time with
  | none => ((⟨400, false⟩, none), s, h)
  | some nt =>
    if schedOk then
      if histOk then
        (((⟨200, true⟩ : ApiResp), some ⟨id, title, body, topic.getD "all", nt, false⟩),
          setKey s id ⟨id, title, body, topic.getD "all", nt, false⟩,
          h ++ [⟨title, body, topic.getD "all", nt,
            getISTISOString (epochMillis nt).toNat, "scheduled"⟩])
      else (((⟨400, false⟩ : ApiResp), none),
        setKey s id ⟨id, title, body, topic.getD "all", nt, false⟩, h)
    else (((⟨400, false⟩ : ApiResp), none), s, h)

/-- Stored schedule record of variant 2 (src/server.js:285, 325): the time is
stored exactly as the request sent it, unparsed; none models an unparsable
string. -/
structure RecV2 where
  id : String
  title : String
  body : String
  topic : String
  time : Option DateFields
  sent : Bool
  deriving DecidableEq

abbrev StoreV2 := List (String × RecV2)

/-- PUT /schedule/:id, variant 2 (src/server.js:317-332): read the record; 404
when it does not exist; otherwise overwrite it with the request fields and
sent false. -/
def putScheduleV2 (s : StoreV2) (id title body : String) (topic : Option String)
    (time : Option DateFields) : ApiResp × StoreV2 :=
  if hasKey s id then
    ((⟨200, true⟩ : ApiResp), setKey s id ⟨id, title, body, topic.getD "all", time, false⟩)
  else ((⟨404, false⟩ : ApiResp), s)

/-- Stored schedule record of variant 3 (src/server.js:524-532, 568-576). -/
structure RecV3 where
  id : String
  title : String
  body : String
  topic : String
  time : DateFields
  sent : Bool
  image : Option String
  deriving DecidableEq

abbrev StoreV3 := List (String × RecV3)

/-- PUT /schedule/:id, variant 3 (src/server.js:517-540): normalize the time
(parse failure is caught and answered 400), then child(id).update with the
full record - with no existence check, so a missing id is created. -/
def putScheduleV3 (s : StoreV3) (id title body : String) (topic : Option String)
    (time : Option DateFields) (image : Option String) : ApiResp × StoreV3 :=
  match normalizeTime time with
  | none => ((⟨400, false⟩ : ApiResp), s)
  | some nt =>
    ((⟨200, true⟩ : ApiResp),
      setKey s id ⟨id, title, body, topic.getD "all", nt, false, image⟩)

/-- One payload item of POST /bulk-schedule, variant 2 (src/server.js:345-383). -/
structure ItemV2 where
  title : String
  body : String
  topic : Option String
  time : Option DateFields
  deriving DecidableEq

/-- History entry shape of variant 2 (src/server.js:291-297, 368-374): the raw
request time and a type tag. -/
structure HistoryEntryV2 where
  title : String
  body : String
  topic : String
  time : Option DateFields
  type : String
  deriving DecidableEq

/-- Response of POST /bulk-schedule: envelope plus the created list it echoes. -/
structure BulkResp where
  status : Nat
  success : Bool
  schedules : List RecV2
  deriving DecidableEq

/-- Sequential body of POST /bulk-schedule, variant 2 (src/server.js:355-377):
for each item in order, write the schedule record (the raw time is stored with
no parsing or validation), append a scheduled history entry, and accumulate
the created record; the first failing store write throws to the catch, which
answers 500 for the whole request, keeping the store as it is at that point.
writeOk and histOk inject per-index store outcomes, ids the generated uuids. -/
def bulkScheduleGo (writeOk histOk : Nat → Bool) (ids : Nat → String) :
    Nat → List ItemV2 → StoreV2 → List HistoryEntryV2 → List RecV2 →
    BulkResp × StoreV2 × List HistoryEntryV2
  | _, [], s, h, created => (⟨200, true, created⟩, s, h)
  | i, item :: rest, s, h, created =>
    if writeOk i then
      if histOk i then
        bulkScheduleGo writeOk histOk ids (i + 1) rest
          (setKey s (ids i) ⟨ids i, item.title, item.body, item.topic.getD "all", item.time, false⟩)
          (h ++ [⟨item.title, item.body, item.topic.getD "all", item.time, "scheduled"⟩])
          (created ++ [⟨ids i, item.title, item.body, item.topic.getD "all", item.time, false⟩])
      else ((⟨500, false, []⟩ : BulkResp),
        setKey s (ids i) ⟨ids i, item.title, item.body, item.topic.getD "all", item.time, false⟩, h)
    else ((⟨500, false, []⟩ : BulkResp), s, h)

/-- POST /bulk-schedule, variant 2 (src/server.js:345-383): reject a missing or
empty array with 400, otherwise process the items sequentially from index 0. -/
def bulkScheduleV2 (writeOk histOk : Nat → Bool) (ids : Nat → String)
    (items : List ItemV2) (s : StoreV2) (h : List HistoryEntryV2) :
    BulkResp × StoreV2 × List HistoryEntryV2 :=
  if items.isEmpty then ((⟨400, false, []⟩ : BulkResp), s, h)
  else bulkScheduleGo writeOk histOk ids 0 items s h []

/-- The created records bulk processing produces from index i on. -/
def mkBulkRecs (ids : Nat → String) : Nat → List ItemV2 → List RecV2
  | _, [] => []
  | i, item :: rest =>
    ⟨ids i, item.title, item.body, item.topic.getD "all", item.time, false⟩ ::
      mkBulkRecs ids (i + 1) rest

/-! ## Helper lemmas: calendar arithmetic -/

theorem yoeSearch_spec (doe : Nat) :
    ∀ b, doe < yearStartDays (b + 1) →
      yearStartDays (yoeSearch doe b) ≤ doe ∧
        doe < yearStartDays (yoeSearch doe b + 1) ∧ yoeSearch doe b ≤ b := by
  intro b
  induction b with
  | zero =>
    intro h
    refine ⟨?_, h, Nat.le_refl _⟩
    show yearStartDays 0 ≤ doe
    unfold yearStartDays
    omega
  | succ n ih =>
    intro h
    simp only [yoeSearch]
    by_cases hle : yearStartDays (n + 1) ≤ doe
    · rw [if_pos hle]
      exact ⟨hle, h, Nat.le_refl _⟩
    · rw [if_neg hle]
      have := ih (by omega)
      exact ⟨this.1, this.2.1, Nat.le_succ_of_le this.2.2⟩

theorem yearStartDays_succ_le (y : Nat) :
    yearStartDays (y + 1) ≤ yearStartDays y + 366 := by
  unfold yearStartDays
  omega

theorem reconstructDay (doe yoe era doy mp d m y : Nat)
    (h1 : yearStartDays yoe ≤ doe) (h2 : doe < yearStartDays (yoe + 1)) (h3 : yoe ≤ 399)
    (hdoy : doy = doe - yearStartDays yoe)
    (hmp : mp = (5 * doy + 2) / 153)
    (hd : d = doy - (153 * mp + 2) / 5 + 1)
    (hm : m = if mp < 10 then mp + 3 else mp - 9)
    (hy : y = yoe + era * 400 + (if m ≤ 2 then 1 else 0)) :
    daysFromCivil y m d = era * 146097 + doe := by
  have hstep := yearStartDays_succ_le yoe
  have hdoy366 : doy ≤ 366 := by omega
  have hmp11 : mp ≤ 11 := by omega
  have hmpstart : (153 * mp + 2) / 5 ≤ doy := by omega
  by_cases hmp10 : mp < 10
  · rw [if_pos hmp10] at hm
    have hm3 : ¬ (m ≤ 2) := by omega
    rw [if_neg hm3] at hy
    unfold daysFromCivil
    rw [if_neg hm3, if_pos (show 2 < m by omega)]
    rw [Nat.sub_zero]
    rw [show y % 400 = yoe by omega, show y / 400 = era by omega]
    omega
  · rw [if_neg hmp10] at hm
    have hm3 : m ≤ 2 := by omega
    rw [if_pos hm3] at hy
    unfold daysFromCivil
    rw [if_pos hm3, if_neg (show ¬ (2 < m) by omega)]
    rw [show (y - 1) % 400 = yoe by omega, show (y - 1) / 400 = era by omega]
    omega

theorem daysFromCivil_civilFromDays (z : Nat) :
    daysFromCivil (civilFromDays z).1 (civilFromDays z).2.1 (civilFromDays z).2.2 = z := by
  have h400 : yearStartDays 400 = 146097 := by decide
  have hdoe : z % 146097 < 146097 := Nat.mod_lt _ (by omega)
  obtain ⟨h1, h2, h3⟩ := yoeSearch_spec (z % 146097) 399 (by rw [h400]; exact hdoe)
  have hmain := reconstructDay (z % 146097) (yoeOfDoe (z % 146097)) (z / 146097)
    (doyOfDoe (z % 146097)) (mpOfDoe (z % 146097)) (dayOfDoe (z % 146097))
    (monthOfDoe (z % 146097))
    (yoeOfDoe (z % 146097) + z / 146097 * 400 +
      (if monthOfDoe (z % 146097) ≤ 2 then 1 else 0))
    h1 h2 h3 rfl rfl rfl rfl rfl
  show daysFromCivil
      (yoeOfDoe (z % 146097) + z / 146097 * 400 +
        (if monthOfDoe (z % 146097) ≤ 2 then 1 else 0))
      (monthOfDoe (z % 146097)) (dayOfDoe (z % 146097)) = z
  rw [hmain]
  omega

theorem epochMillis_toISOString (t : Nat) :
    epochMillis (toISOString t) = (t : Int) := by
  simp only [epochMillis, toISOString]
  rw [daysFromCivil_civilFromDays]
  omega

/-! ## Helper lemmas: stores -/

theorem keys_unique {α : Type} :
    ∀ (s : List (String × α)), (s.map Prod.fst).Nodup →
      ∀ {id : String} {v w : α}, (id, v) ∈ s → (id, w) ∈ s → v = w := by
  intro s
  induction s with
  | nil =>
    intro _ id v w hv _
    exact absurd hv (List.not_mem_nil _)
  | cons e rest ih =>
    intro hnd id v w hv hw
    rw [List.map_cons, List.nodup_cons] at hnd
    rcases List.mem_cons.mp hv with hv1 | hv1 <;>
      rcases List.mem_cons.mp hw with hw1 | hw1
    · rw [← hv1] at hw1
      exact (Prod.mk.injEq _ _ _ _ ▸ hw1).2.symm ▸ rfl
    · exfalso
      apply hnd.1
      rw [← hv1]
      exact List.mem_map.mpr ⟨(id, w), hw1, rfl⟩
    · exfalso
      apply hnd.1
      rw [← hw1]
      exact List.mem_map.mpr ⟨(id, v), hv1, rfl⟩
    · exact ih hnd.2 hv1 hw1

theorem mem_markSent_cases {s : Store} {kid : String} {e : String × TaskRec}
    (he : e ∈ markSent s kid) :
    ∃ e0, e0 ∈ s ∧ e.1 = e0.1 ∧ e.2.time = e0.2.time ∧
      (e.2.sent = e0.2.sent ∨ e.2.sent = true) := by
  unfold markSent at he
  rcases List.mem_map.mp he with ⟨e0, he0, heq⟩
  by_cases hk : e0.1 = kid
  · rw [if_pos hk] at heq
    exact ⟨e0, he0, by rw [← heq], by rw [← heq], Or.inr (by rw [← heq])⟩
  · rw [if_neg hk] at heq
    exact ⟨e0, he0, by rw [← heq], by rw [← heq], Or.inl (by rw [← heq])⟩

theorem markSent_self_sent {s : Store} {kid : String} {t : TaskRec}
    (ht : (kid, t) ∈ markSent s kid) : t.sent = true := by
  unfold markSent at ht
  rcases List.mem_map.mp ht with ⟨e0, _, heq⟩
  by_cases hk : e0.1 = kid
  · rw [if_pos hk] at heq
    have := congrArg Prod.snd heq
    simp only [] at this
    rw [← this]
  · rw [if_neg hk] at heq
    exact absurd (congrArg Prod.fst heq) hk

theorem mem_removeId {s : Store} {kid : String} {e : String × TaskRec}
    (he : e ∈ removeId s kid) : e ∈ s :=
  List.mem_of_mem_filter he

theorem removeId_self {s : Store} {kid : String} {t : TaskRec}
    (ht : (kid, t) ∈ removeId s kid) : False := by
  unfold removeId at ht
  have := List.of_mem_filter ht
  simp only [decide_eq_true_eq] at this
  exact this rfl

theorem markSent_sent_pres {s : Store} {kid id : String}
    (hs : ∀ t : TaskRec, (id, t) ∈ s → t.sent = true) :
    ∀ t : TaskRec, (id, t) ∈ markSent s kid → t.sent = true := by
  intro t ht
  rcases mem_markSent_cases ht with ⟨e0, he0, hfst, _, hsent⟩
  have hid : id = e0.1 := hfst
  rcases hsent with hsent | hsent
  · have ht2 : t.sent = e0.2.sent := hsent
    rw [ht2]
    exact hs e0.2 (by rw [hid, Prod.mk.eta]; exact he0)
  · exact hsent

theorem markSent_time_pres {s : Store} {kid id : String} {T : Int}
    (hs : ∀ t : TaskRec, (id, t) ∈ s → t.time = T) :
    ∀ t : TaskRec, (id, t) ∈ markSent s kid → t.time = T := by
  intro t ht
  rcases mem_markSent_cases ht with ⟨e0, he0, hfst, htime, _⟩
  have hid : id = e0.1 := hfst
  have ht2 : t.time = e0.2.time := htime
  rw [ht2]
  exact hs e0.2 (by rw [hid, Prod.mk.eta]; exact he0)

theorem cycleV1Go_store_pres (p : String → Option String) (now : Int)
    (P : Store → Prop) (hP : ∀ s kid, P s → P (markSent s kid)) :
    ∀ (l : List (String × TaskRec)) (s : Store) (h : List HistoryEntryV1),
      P s → P (cycleV1Go p now l s h).store := by
  intro l
  induction l with
  | nil => intro s h hs; exact hs
  | cons e rest ih =>
    intro s h hs
    rcases e with ⟨i0, t0⟩
    simp only [cycleV1Go]
    by_cases hc : t0.sent = false ∧ t0.time ≤ now
    · rw [if_pos hc]
      exact ih (markSent s i0) _ (hP s i0 hs)
    · rw [if_neg hc]
      exact ih s h hs

theorem cycleV3Go_store_pres (p : String → Option String) (now : Int)
    (P : Store → Prop) (hP : ∀ s kid, P s → P (removeId s kid)) :
    ∀ (l : List (String × TaskRec)) (s : Store) (h : List HistoryEntryV3),
      P s → P (cycleV3Go p now l s h).store := by
  intro l
  induction l with
  | nil => intro s h hs; exact hs
  | cons e rest ih =>
    intro s h hs
    rcases e with ⟨i0, t0⟩
    simp only [cycleV3Go]
    by_cases hc : t0.sent = false ∧ t0.time ≤ now
    · rw [if_pos hc]
      exact ih (removeId s i0) _ (hP s i0 hs)
    · rw [if_neg hc]
      exact ih s h hs

theorem cycleV1Go_dispatched (p : String → Option String) (now : Int) (id : String) :
    ∀ (l : List (String × TaskRec)) (s : Store) (h : List HistoryEntryV1),
      id ∈ (cycleV1Go p now l s h).dispatched →
      ∃ t : TaskRec, (id, t) ∈ l ∧ t.sent = false ∧ t.time ≤ now := by
  intro l
  induction l with
  | nil => intro s h hd; exact absurd hd (List.not_mem_nil _)
  | cons e rest ih =>
    intro s h hd
    rcases e with ⟨i0, t0⟩
    simp only [cycleV1Go] at hd
    by_cases hc : t0.sent = false ∧ t0.time ≤ now
    · rw [if_pos hc] at hd
      rcases List.mem_cons.mp hd with h1 | h1
      · exact ⟨t0, by rw [h1]; exact List.mem_cons_self _ _, hc.1, hc.2⟩
      · rcases ih _ _ h1 with ⟨t, htl, hts, htt⟩
        exact ⟨t, List.mem_cons_of_mem _ htl, hts, htt⟩
    · rw [if_neg hc] at hd
      rcases ih _ _ hd with ⟨t, htl, hts, htt⟩
      exact ⟨t, List.mem_cons_of_mem _ htl, hts, htt⟩

theorem cycleV3Go_dispatched (p : String → Option String) (now : Int) (id : String) :
    ∀ (l : List (String × TaskRec)) (s : Store) (h : List HistoryEntryV3),
      id ∈ (cycleV3Go p now l s h).dispatched →
      ∃ t : TaskRec, (id, t) ∈ l ∧ t.sent = false ∧ t.time ≤ now := by
  intro l
  induction l with
  | nil => intro s h hd; exact absurd hd (List.not_mem_nil _)
  | cons e rest ih =>
    intro s h hd
    rcases e with ⟨i0, t0⟩
    simp only [cycleV3Go] at hd
    by_cases hc : t0.sent = false ∧ t0.time ≤ now
    · rw [if_pos hc] at hd
      rcases List.mem_cons.mp hd with h1 | h1
      · exact ⟨t0, by rw [h1]; exact List.mem_cons_self _ _, hc.1, hc.2⟩
      · rcases ih _ _ h1 with ⟨t, htl, hts, htt⟩
        exact ⟨t, List.mem_cons_of_mem _ htl, hts, htt⟩
    · rw [if_neg hc] at hd
      rcases ih _ _ hd with ⟨t, htl, hts, htt⟩
      exact ⟨t, List.mem_cons_of_mem _ htl, hts, htt⟩

theorem cycleV1Go_dispatches (p : String → Option String) (now : Int) (id : String)
    (task : TaskRec) (hsent : task.sent = false) (hdue : task.time ≤ now) :
    ∀ (l : List (String × TaskRec)) (s : Store) (h : List HistoryEntryV1),
      (id, task) ∈ l → id ∈ (cycleV1Go p now l s h).dispatched := by
  intro l
  induction l with
  | nil => intro s h hm; exact absurd hm (List.not_mem_nil _)
  | cons e rest ih =>
    intro s h hm
    rcases e with ⟨i0, t0⟩
    simp only [cycleV1Go]
    rcases List.mem_cons.mp hm with h1 | h1
    · have hi : id = i0 := congrArg Prod.fst h1
      have htt : task = t0 := congrArg Prod.snd h1
      rw [if_pos (show t0.sent = false ∧ t0.time ≤ now from
        ⟨htt ▸ hsent, htt ▸ hdue⟩)]
      exact hi ▸ List.mem_cons_self i0 _
    · by_cases hc : t0.sent = false ∧ t0.time ≤ now
      · rw [if_pos hc]
        exact List.mem_cons_of_mem _ (ih _ _ h1)
      · rw [if_neg hc]
        exact ih s h h1

theorem cycleV3Go_dispatches (p : String → Option String) (now : Int) (id : String)
    (task : TaskRec) (hsent : task.sent = false) (hdue : task.time ≤ now) :
    ∀ (l : List (String × TaskRec)) (s : Store) (h : List HistoryEntryV3),
      (id, task) ∈ l → id ∈ (cycleV3Go p now l s h).dispatched := by
  intro l
  induction l with
  | nil => intro s h hm; exact absurd hm (List.not_mem_nil _)
  | cons e rest ih =>
    intro s h hm
    rcases e with ⟨i0, t0⟩
    simp only [cycleV3Go]
    rcases List.mem_cons.mp hm with h1 | h1
    · have hi : id = i0 := congrArg Prod.fst h1
      have htt : task = t0 := congrArg Prod.snd h1
      rw [if_pos (show t0.sent = false ∧ t0.time ≤ now from
        ⟨htt ▸ hsent, htt ▸ hdue⟩)]
      exact hi ▸ List.mem_cons_self i0 _
    · by_cases hc : t0.sent = false ∧ t0.time ≤ now
      · rw [if_pos hc]
        exact List.mem_cons_of_mem _ (ih _ _ h1)
      · rw [if_neg hc]
        exact ih s h h1

theorem cycleV1Go_marks (p : String → Option String) (now : Int) (id : String)
    (task : TaskRec) (hsent : task.sent = false) (hdue : task.time ≤ now) :
    ∀ (l : List (String × TaskRec)) (s : Store) (h : List HistoryEntryV1),
      (id, task) ∈ l →
      ∀ t : TaskRec, (id, t) ∈ (cycleV1Go p now l s h).store → t.sent = true := by
  intro l
  induction l with
  | nil => intro s h hm; exact absurd hm (List.not_mem_nil _)
  | cons e rest ih =>
    intro s h hm t ht
    rcases e with ⟨i0, t0⟩
    simp only [cycleV1Go] at ht
    rcases List.mem_cons.mp hm with h1 | h1
    · have hi : id = i0 := congrArg Prod.fst h1
      have htt : task = t0 := congrArg Prod.snd h1
      rw [if_pos (show t0.sent = false ∧ t0.time ≤ now from
        ⟨htt ▸ hsent, htt ▸ hdue⟩)] at ht
      have base : ∀ t' : TaskRec, (id, t') ∈ markSent s i0 → t'.sent = true := by
        intro t' ht'
        rw [hi] at ht'
        exact markSent_self_sent ht'
      exact cycleV1Go_store_pres p now
        (fun st => ∀ t' : TaskRec, (id, t') ∈ st → t'.sent = true)
        (fun s' kid hP => markSent_sent_pres hP) rest (markSent s i0) _ base t ht
    · by_cases hc : t0.sent = false ∧ t0.time ≤ now
      · rw [if_pos hc] at ht
        exact ih _ _ h1 t ht
      · rw [if_neg hc] at ht
        exact ih _ _ h1 t ht

theorem cycleV3Go_removes (p : String → Option String) (now : Int) (id : String)
    (task : TaskRec) (hsent : task.sent = false) (hdue : task.time ≤ now) :
    ∀ (l : List (String × TaskRec)) (s : Store) (h : List HistoryEntryV3),
      (id, task) ∈ l →
      ∀ t : TaskRec, (id, t) ∈ (cycleV3Go p now l s h).store → False := by
  intro l
  induction l with
  | nil => intro s h hm; exact absurd hm (List.not_mem_nil _)
  | cons e rest ih =>
    intro s h hm t ht
    rcases e with ⟨i0, t0⟩
    simp only [cycleV3Go] at ht
    rcases List.mem_cons.mp hm with h1 | h1
    · have hi : id = i0 := congrArg Prod.fst h1
      have htt : task = t0 := congrArg Prod.snd h1
      rw [if_pos (show t0.sent = false ∧ t0.time ≤ now from
        ⟨htt ▸ hsent, htt ▸ hdue⟩)] at ht
      have base : ∀ t' : TaskRec, (id, t') ∈ removeId s i0 → False := by
        intro t' ht'
        rw [hi] at ht'
        exact removeId_self ht'
      exact cycleV3Go_store_pres p now
        (fun st => ∀ t' : TaskRec, (id, t') ∈ st → False)
        (fun s' kid hP t' ht' => hP t' (mem_removeId ht')) rest (removeId s i0) _ base t ht
    · by_cases hc : t0.sent = false ∧ t0.time ≤ now
      · rw [if_pos hc] at ht
        exact ih _ _ h1 t ht
      · rw [if_neg hc] at ht
        exact ih _ _ h1 t ht

theorem runCyclesV1_sent_never (id : String) :
    ∀ (cs : List ((String → Option String) × Int)) (s : Store) (h : List HistoryEntryV1),
      (∀ t : TaskRec, (id, t) ∈ s → t.sent = true) →
      id ∉ (runCyclesV1 cs s h).dispatched := by
  intro cs
  induction cs with
  | nil => intro s h _ hd; exact absurd hd (List.not_mem_nil _)
  | cons c cst ih =>
    intro s h hs hd
    rcases c with ⟨p, now⟩
    simp only [runCyclesV1] at hd
    rcases List.mem_append.mp hd with h1 | h1
    · rcases cycleV1Go_dispatched p now id s s h h1 with ⟨t, htl, hts, _⟩
      rw [hs t htl] at hts
      exact Bool.noConfusion hts
    · exact ih (cycleV1 p now s h).store (cycleV1 p now s h).hist
        (cycleV1Go_store_pres p now
          (fun st => ∀ t : TaskRec, (id, t) ∈ st → t.sent = true)
          (fun s' kid hP => markSent_sent_pres hP) s s h hs) h1

theorem runCyclesV3_sent_never (id : String) :
    ∀ (cs : List ((String → Option String) × Int)) (s : Store) (h : List HistoryEntryV3),
      (∀ t : TaskRec, (id, t) ∈ s → t.sent = true) →
      id ∉ (runCyclesV3 cs s h).dispatched := by
  intro cs
  induction cs with
  | nil => intro s h _ hd; exact absurd hd (List.not_mem_nil _)
  | cons c cst ih =>
    intro s h hs hd
    rcases c with ⟨p, now⟩
    simp only [runCyclesV3] at hd
    rcases List.mem_append.mp hd with h1 | h1
    · rcases cycleV3Go_dispatched p now id s s h h1 with ⟨t, htl, hts, _⟩
      rw [hs t htl] at hts
      exact Bool.noConfusion hts
    · exact ih (cycleV3 p now s h).store (cycleV3 p now s h).hist
        (cycleV3Go_store_pres p now
          (fun st => ∀ t : TaskRec, (id, t) ∈ st → t.sent = true)
          (fun s' kid hP t' ht' => hP t' (mem_removeId ht')) s s h hs) h1

theorem runCyclesV1_future_never (id : String) (T : Int) :
    ∀ (cs : List ((String → Option String) × Int)) (s : Store) (h : List HistoryEntryV1),
      (∀ t : TaskRec, (id, t) ∈ s → t.time = T) →
      (∀ c ∈ cs, c.2 < T) →
      id ∉ (runCyclesV1 cs s h).dispatched := by
  intro cs
  induction cs with
  | nil => intro s h _ _ hd; exact absurd hd (List.not_mem_nil _)
  | cons c cst ih =>
    intro s h hs hcs hd
    rcases c with ⟨p, now⟩
    simp only [runCyclesV1] at hd
    rcases List.mem_append.mp hd with h1 | h1
    · rcases cycleV1Go_dispatched p now id s s h h1 with ⟨t, htl, _, htt⟩
      have h2 : t.time = T := hs t htl
      have h3 : now < T := hcs (p, now) (List.mem_cons_self _ _)
      omega
    · exact ih (cycleV1 p now s h).store (cycleV1 p now s h).hist
        (cycleV1Go_store_pres p now
          (fun st => ∀ t : TaskRec, (id, t) ∈ st → t.time = T)
          (fun s' kid hP => markSent_time_pres hP) s s h hs)
        (fun c hc => hcs c (List.mem_cons_of_mem _ hc)) h1

/-! ## Helper lemmas: keyed store writes and bulk processing -/

theorem mem_setKey_self_val {α : Type} (s : List (String × α)) (id : String) (v : α) :
    ∀ w : α, (id, w) ∈ setKey s id v → w = v := by
  intro w hw
  unfold setKey at hw
  by_cases hk : hasKey s id = true
  · rw [if_pos hk] at hw
    rcases List.mem_map.mp hw with ⟨e0, _, heq⟩
    by_cases h0 : e0.1 = id
    · rw [if_pos h0] at heq
      exact (congrArg Prod.snd heq).symm
    · rw [if_neg h0] at heq
      exact absurd (congrArg Prod.fst heq) h0
  · rw [if_neg hk] at hw
    rcases List.mem_append.mp hw with h1 | h1
    · exfalso
      apply hk
      unfold hasKey
      rw [List.any_eq_true]
      exact ⟨(id, w), h1, by simp⟩
    · exact congrArg Prod.snd (List.mem_singleton.mp h1)

theorem mem_setKey_self {α : Type} (s : List (String × α)) (id : String) (v : α) :
    (id, v) ∈ setKey s id v := by
  unfold setKey
  by_cases hk : hasKey s id = true
  · rw [if_pos hk]
    unfold hasKey at hk
    rw [List.any_eq_true] at hk
    rcases hk with ⟨e0, he0, hdec⟩
    rw [decide_eq_true_eq] at hdec
    refine List.mem_map.mpr ⟨e0, he0, ?_⟩
    rw [if_pos hdec]
  · rw [if_neg hk]
    exact List.mem_append.mpr (Or.inr (List.mem_singleton.mpr rfl))

theorem hasKey_setKey_self {α : Type} (s : List (String × α)) (id : String) (v : α) :
    hasKey (setKey s id v) id = true := by
  unfold hasKey
  rw [List.any_eq_true]
  exact ⟨(id, v), mem_setKey_self s id v, by simp⟩

theorem hasKey_setKey_mono {α : Type} (s : List (String × α)) (kid j : String) (v : α)
    (hj : hasKey s j = true) : hasKey (setKey s kid v) j = true := by
  unfold hasKey at hj
  rw [List.any_eq_true] at hj
  rcases hj with ⟨e0, he0, hdec⟩
  rw [decide_eq_true_eq] at hdec
  unfold setKey
  by_cases hk : hasKey s kid = true
  · rw [if_pos hk]
    unfold hasKey
    rw [List.any_eq_true]
    by_cases h0 : e0.1 = kid
    · refine ⟨(kid, v), List.mem_map.mpr ⟨e0, he0, by rw [if_pos h0]⟩, ?_⟩
      rw [decide_eq_true_eq]
      exact h0 ▸ hdec
    · refine ⟨e0, List.mem_map.mpr ⟨e0, he0, by rw [if_neg h0]⟩, ?_⟩
      rw [decide_eq_true_eq]
      exact hdec
  · rw [if_neg hk]
    unfold hasKey
    rw [List.any_eq_true]
    refine ⟨e0, List.mem_append.mpr (Or.inl he0), ?_⟩
    rw [decide_eq_true_eq]
    exact hdec

theorem bulkGo_ok (writeOk histOk : Nat → Bool) (ids : Nat → String)
    (hw : ∀ j, writeOk j = true) (hh : ∀ j, histOk j = true) :
    ∀ (l : List ItemV2) (i : Nat) (s : StoreV2) (h : List HistoryEntryV2)
      (created : List RecV2),
      (bulkScheduleGo writeOk histOk ids i l s h created).1 =
        ⟨200, true, created ++ mkBulkRecs ids i l⟩ := by
  intro l
  induction l with
  | nil =>
    intro i s h created
    simp only [bulkScheduleGo, mkBulkRecs, List.append_nil]
  | cons item rest ih =>
    intro i s h created
    simp only [bulkScheduleGo, mkBulkRecs]
    rw [if_pos (hw i), if_pos (hh i)]
    rw [ih (i + 1)]
    rw [List.append_assoc, List.singleton_append]

theorem bulkGo_fail (writeOk histOk : Nat → Bool) (ids : Nat → String) (k : Nat)
    (hwk : writeOk k = false) (hw : ∀ j, j < k → writeOk j = true)
    (hh : ∀ j, j < k → histOk j = true) :
    ∀ (l : List ItemV2) (i : Nat) (s : StoreV2) (h : List HistoryEntryV2)
      (created : List RecV2), i ≤ k → k < i + l.length →
      (bulkScheduleGo writeOk histOk ids i l s h created).1.success = false ∧
      (bulkScheduleGo writeOk histOk ids i l s h created).1.status = 500 ∧
      (∀ key, hasKey s key = true →
        hasKey (bulkScheduleGo writeOk histOk ids i l s h created).2.1 key = true) ∧
      (∀ j, i ≤ j → j < k →
        hasKey (bulkScheduleGo writeOk histOk ids i l s h created).2.1 (ids j) = true) := by
  intro l
  induction l with
  | nil =>
    intro i s h created hik hk
    rw [List.length_nil] at hk
    exact absurd hik (by omega)
  | cons item rest ih =>
    intro i s h created hik hk
    have hk' : k < i + 1 + rest.length := by
      rw [List.length_cons] at hk
      omega
    simp only [bulkScheduleGo]
    by_cases hi : i = k
    · rw [if_neg (by rw [hi, hwk]; exact Bool.false_ne_true)]
      refine ⟨rfl, rfl, fun key hkey => hkey, ?_⟩
      intro j hj1 hj2
      exact absurd hj1 (by omega)
    · have hik2 : i < k := lt_of_le_of_ne hik hi
      rw [if_pos (hw i hik2), if_pos (hh i hik2)]
      have hrec := ih (i + 1)
        (setKey s (ids i) ⟨ids i, item.title, item.body, item.topic.getD "all", item.time, false⟩)
        (h ++ [⟨item.title, item.body, item.topic.getD "all", item.time, "scheduled"⟩])
        (created ++ [⟨ids i, item.title, item.body, item.topic.getD "all", item.time, false⟩])
        (by omega) hk'
      refine ⟨hrec.1, hrec.2.1, ?_, ?_⟩
      · intro key hkey
        exact hrec.2.2.1 key (hasKey_setKey_mono _ _ _ _ hkey)
      · intro j hj1 hj2
        by_cases hji : j = i
        · exact hrec.2.2.1 (ids j) (by rw [hji]; exact hasKey_setKey_self _ _ _)
        · exact hrec.2.2.2 j (by omega) hj2

/-! ## Claims -/

/-- Claim C1, counterexample: the claim states that when the provider dispatch
fails the loop does not mark the schedule as sent and the schedule remains
pending with sent false. At the concrete store with one due unsent task and a
provider that fails every call (p returns none, modeling a thrown send), the
variant 1 cycle still flips sent to true, the variant 3 cycle still deletes
the record, and no history entry is written - so the claim is false on the
code. -/
theorem dispatch_failure_not_retried_cex :
    (cycleV1 (fun _ => none) 100 [("a", ⟨"t", "b", "all", none, 0, false⟩)] []).store =
      [("a", ⟨"t", "b", "all", none, 0, true⟩)] ∧
    (cycleV3 (fun _ => none) 100 [("a", ⟨"t", "b", "all", none, 0, false⟩)] []).store =
      [] ∧
    (cycleV1 (fun _ => none) 100 [("a", ⟨"t", "b", "all", none, 0, false⟩)] []).hist =
      [] := by
  refine ⟨?_, ?_, ?_⟩ <;> rfl

/-- Claim C1, amended: for every schedule that is due and unsent in a cycle,
the cycle finalizes it whether or not the provider call fails (the provider
outcome p is arbitrary, in particular p id = none): variant 1 leaves every
record under that id with sent true, and variant 3 leaves no record under that
id; the schedule is not retried on the next cycle. This is because
sendNotification swallows the provider error and the loop then runs the store
write unconditionally (src/server.js:41-43, 429-432). -/
theorem dispatch_failure_not_retried (p : String → Option String) (now : Int)
    (s : Store) (h1 : List HistoryEntryV1) (h3 : List HistoryEntryV3)
    (id : String) (task : TaskRec) (hmem : (id, task) ∈ s)
    (hsent : task.sent = false) (hdue : task.time ≤ now) :
    (∀ t : TaskRec, (id, t) ∈ (cycleV1 p now s h1).store → t.sent = true) ∧
    (∀ t : TaskRec, (id, t) ∈ (cycleV3 p now s h3).store → False) :=
  ⟨cycleV1Go_marks p now id task hsent hdue s s h1 hmem,
   cycleV3Go_removes p now id task hsent hdue s s h3 hmem⟩

/-- Claim C1, witness: the amended theorem evaluated at the failing-provider
input of the counterexample. -/
theorem dispatch_failure_not_retried_witness :
    (("a", (⟨"t", "b", "all", none, 0, false⟩ : TaskRec)) ∈
        [("a", (⟨"t", "b", "all", none, 0, false⟩ : TaskRec))] ∧
      (⟨"t", "b", "all", none, 0, false⟩ : TaskRec).sent = false ∧
      (⟨"t", "b", "all", none, 0, false⟩ : TaskRec).time ≤ 100) ∧
    ((∀ t : TaskRec,
        ("a", t) ∈ (cycleV1 (fun _ => none) 100
          [("a", ⟨"t", "b", "all", none, 0, false⟩)] []).store → t.sent = true) ∧
      (∀ t : TaskRec,
        ("a", t) ∈ (cycleV3 (fun _ => none) 100
          [("a", ⟨"t", "b", "all", none, 0, false⟩)] []).store → False)) :=
  ⟨⟨by decide, rfl, by decide⟩,
    dispatch_failure_not_retried (fun _ => none) 100
      [("a", ⟨"t", "b", "all", none, 0, false⟩)] [] [] "a"
      ⟨"t", "b", "all", none, 0, false⟩ (by decide) rfl (by decide)⟩

/-- Claim C3, confirmed: over any run of scheduler-loop cycles (each with its
own provider outcomes and captured now), if at the start every record under an
id - if any - has sent true (which covers a record already marked sent and a
record that has been removed), then no later cycle ever dispatches that id:
the loop only dispatches snapshot entries with sent false (src/server.js:39,
426), variant 1 store writes only turn sent from false to true, and variant 3
only removes records. -/
theorem once_sent_never_redispatched
    (cs1 cs3 : List ((String → Option String) × Int)) (s1 s3 : Store)
    (h1 : List HistoryEntryV1) (h3 : List HistoryEntryV3) (id : String)
    (hs1 : ∀ t : TaskRec, (id, t) ∈ s1 → t.sent = true)
    (hs3 : ∀ t : TaskRec, (id, t) ∈ s3 → t.sent = true) :
    id ∉ (runCyclesV1 cs1 s1 h1).dispatched ∧
    id ∉ (runCyclesV3 cs3 s3 h3).dispatched :=
  ⟨runCyclesV1_sent_never id cs1 s1 h1 hs1,
   runCyclesV3_sent_never id cs3 s3 h3 hs3⟩

/-- Claim C3, witness: a sent record under variant 1 and a removed (absent)
record under variant 3 are never dispatched across a concrete run. -/
theorem once_sent_never_redispatched_witness :
    ((∀ t : TaskRec, ("a", t) ∈ [("a", (⟨"t", "b", "all", none, 0, true⟩ : TaskRec))] →
        t.sent = true) ∧
      (∀ t : TaskRec, ("a", t) ∈ ([] : Store) → t.sent = true)) ∧
    ("a" ∉ (runCyclesV1 [(fun _ => some "m", 1000)]
        [("a", ⟨"t", "b", "all", none, 0, true⟩)] []).dispatched ∧
      "a" ∉ (runCyclesV3 [(fun _ => some "m", 1000)] [] []).dispatched) := by
  have hA : ∀ t : TaskRec,
      ("a", t) ∈ [("a", (⟨"t", "b", "all", none, 0, true⟩ : TaskRec))] → t.sent = true := by
    intro t ht
    have h2 : t = ⟨"t", "b", "all", none, 0, true⟩ :=
      congrArg Prod.snd (List.mem_singleton.mp ht)
    rw [h2]
  have hB : ∀ t : TaskRec, ("a", t) ∈ ([] : Store) → t.sent = true := by
    intro t ht
    exact absurd ht (List.not_mem_nil _)
  exact ⟨⟨hA, hB⟩,
    once_sent_never_redispatched [(fun _ => some "m", 1000)] [(fun _ => some "m", 1000)]
      [("a", ⟨"t", "b", "all", none, 0, true⟩)] [] [] [] "a" hA hB⟩

/-- Claim C4, confirmed: for a schedule record present at the start of a cycle
(store keys unique, as Firebase keys are), if its time is at most the now
captured at the start of the cycle and sent is false, that cycle dispatches
it; and if its time is in the future relative to every cycle now in a run of
cycles, none of those cycles dispatches it. Variant 2 runs the same scan
logic, marking sent true (src/server.js:219-224), so the variant 1 model
covers both cited variants. -/
theorem due_dispatch_and_future_skip (p : String → Option String) (now : Int)
    (s : Store) (h : List HistoryEntryV1) (id : String) (task : TaskRec)
    (hmem : (id, task) ∈ s) (hnd : (s.map Prod.fst).Nodup) :
    (task.sent = false → task.time ≤ now → id ∈ (cycleV1 p now s h).dispatched) ∧
    (∀ cs : List ((String → Option String) × Int),
      (∀ c ∈ cs, c.2 < task.time) → id ∉ (runCyclesV1 cs s h).dispatched) := by
  constructor
  · intro hsent hdue
    exact cycleV1Go_dispatches p now id task hsent hdue s s h hmem
  · intro cs hcs
    refine runCyclesV1_future_never id task.time cs s h ?_ hcs
    intro t ht
    exact congrArg TaskRec.time (keys_unique s hnd ht hmem)

/-- Claim C4, witness: a past-due unsent schedule is dispatched by the cycle,
and with a cycle whose captured now lies before the schedule time it is not
dispatched. -/
theorem due_dispatch_and_future_skip_witness :
    (("a", (⟨"t", "b", "all", none, 0, false⟩ : TaskRec)) ∈
        [("a", (⟨"t", "b", "all", none, 0, false⟩ : TaskRec))] ∧
      ([("a", (⟨"t", "b", "all", none, 0, false⟩ : TaskRec))].map Prod.fst).Nodup) ∧
    "a" ∈ (cycleV1 (fun _ => some "m") 50
      [("a", ⟨"t", "b", "all", none, 0, false⟩)] []).dispatched ∧
    "a" ∉ (runCyclesV1 [(fun _ => some "m", -5)]
      [("a", ⟨"t", "b", "all", none, 0, false⟩)] []).dispatched := by
  have hthm := due_dispatch_and_future_skip (fun _ => some "m") 50
    [("a", ⟨"t", "b", "all", none, 0, false⟩)] [] "a"
    ⟨"t", "b", "all", none, 0, false⟩ (by decide) (by decide)
  refine ⟨⟨by decide, by decide⟩, hthm.1 rfl (by decide), ?_⟩
  refine hthm.2 [(fun _ => some "m", -5)] ?_
  intro c hc
  rw [List.mem_singleton] at hc
  rw [hc]
  decide

/-- Claim C5, confirmed: on a successful provider call, sendNotification
returns the provider message identifier to its caller and appends exactly one
history entry of type sent stamped with the send instant (the dispatch-time
now), in both the variant 1 and the variant 3 dispatcher: the new history is
the old one plus exactly that single entry. -/
theorem dispatch_success_returns_id_logs_once (msgId : String) (now : Int)
    (title body : String) (topic image : Option String)
    (h1 : List HistoryEntryV1) (h3 : List HistoryEntryV3) :
    sendNotificationV1 (some msgId) now title body topic h1 =
      (some msgId, h1 ++ [⟨title, body, topic.getD "all", now, "sent"⟩]) ∧
    sendNotificationV3 (some msgId) now title body topic image h3 =
      (some msgId, h3 ++ [⟨title, body, topic.getD "all", image, now, "sent"⟩]) :=
  ⟨rfl, rfl⟩

/-- Claim C6, counterexample: the claim states a provider failure on
send-immediately is surfaced as a 5xx DispatchFailed error to the caller. On
the code, sendNotification catches the error and returns undefined, so the
route answers HTTP 200 with success true (and no provider response): the
concrete failing call below produces exactly that, not a 5xx. -/
theorem send_now_provider_failure_cex :
    (postSendNotificationV1 none 0 "t" "b" none []).1 =
      ⟨200, true, none⟩ := rfl

/-- Claim C6, amended: for every send-immediately request on which the
provider call fails, the error is swallowed inside sendNotification
(src/server.js:75-77): the endpoint responds with the success envelope -
status 200, success true, absent provider response - and appends no history;
the catch arm answering 500 (src/server.js:89-91) is not reached. -/
theorem send_now_provider_failure (now : Int) (title body : String)
    (topic : Option String) (h : List HistoryEntryV1) :
    (postSendNotificationV1 none now title body topic h).1 = ⟨200, true, none⟩ ∧
    (postSendNotificationV1 none now title body topic h).2 = h :=
  ⟨rfl, rfl⟩

/-- Claim C2, confirmed: for every valid time input, in whatever offset it is
expressed, creating a schedule stores (and returns) a record whose canonical
time is the UTC rendering of the very instant the reference ISO-8601 parse
(epochMillis) assigns to the input: parsing the stored canonical time back
gives exactly that instant, and the stored offset is zero (UTC). In
particular, the two offset spellings of the same instant from the
specification, 2024-01-01T00:00:00+05:30 and 2023-12-31T18:30:00Z, parse to
an equal comparable instant. The due comparison uses the parse of the stored
time (src/server.js:33, 39), hence the same instant. -/
theorem schedule_time_normalized_roundtrip (id title body : String)
    (topic : Option String) (f : DateFields) (s : StoreV1)
    (h : List SchedHistoryV1) (hpos : 0 ≤ epochMillis f) :
    ((postScheduleV1 true true id title body topic (some f) s h).1.2 =
        some ⟨id, title, body, topic.getD "all",
          toISOString (epochMillis f).toNat, false⟩ ∧
      (id, (⟨id, title, body, topic.getD "all",
          toISOString (epochMillis f).toNat, false⟩ : RecV1)) ∈
        (postScheduleV1 true true id title body topic (some f) s h).2.1 ∧
      epochMillis (toISOString (epochMillis f).toNat) = epochMillis f ∧
      (toISOString (epochMillis f).toNat).offsetMin = 0) ∧
    epochMillis ⟨2024, 1, 1, 0, 0, 0, 0, 330⟩ =
      epochMillis ⟨2023, 12, 31, 18, 30, 0, 0, 0⟩ := by
  have hr : epochMillis (toISOString (epochMillis f).toNat) = epochMillis f := by
    rw [epochMillis_toISOString]
    exact Int.toNat_of_nonneg hpos
  have hnorm : normalizeTime (some f) = some (toISOString (epochMillis f).toNat) :=
    if_pos hpos
  refine ⟨⟨?_, ?_, hr, rfl⟩, by decide⟩
  · unfold postScheduleV1
    rw [hnorm]
    rfl
  · unfold postScheduleV1
    rw [hnorm]
    exact mem_setKey_self s id _

/-- Claim C2, witness: the round-trip evaluated at the +05:30 example input
from the specification. -/
theorem schedule_time_normalized_roundtrip_witness :
    0 ≤ epochMillis ⟨2024, 1, 1, 0, 0, 0, 0, 330⟩ ∧
    epochMillis (toISOString (epochMillis ⟨2024, 1, 1, 0, 0, 0, 0, 330⟩).toNat) =
      epochMillis ⟨2024, 1, 1, 0, 0, 0, 0, 330⟩ ∧
    epochMillis ⟨2024, 1, 1, 0, 0, 0, 0, 330⟩ =
      epochMillis ⟨2023, 12, 31, 18, 30, 0, 0, 0⟩ := by
  have h := schedule_time_normalized_roundtrip "a" "T" "B" none
    ⟨2024, 1, 1, 0, 0, 0, 0, 330⟩ [] [] (by decide)
  exact ⟨by decide, h.1.2.2.1, h.2⟩

/-- Claim C7, counterexample: the claim states that an update on a missing id
fails with NotFound and stores nothing. Variant 3 PUT /schedule/:id has no
existence check: on the empty store, updating the unknown id x with a valid
time answers success 200 and the record is stored. -/
theorem update_missing_id_upserts_cex :
    (putScheduleV3 [] "x" "t" "b" none (some ⟨0, 3, 1, 0, 0, 0, 0, 0⟩) none).1 =
      ⟨200, true⟩ ∧
    (putScheduleV3 [] "x" "t" "b" none (some ⟨0, 3, 1, 0, 0, 0, 0, 0⟩) none).2 ≠ [] := by
  refine ⟨rfl, ?_⟩
  decide

/-- Claim C7, amended: variant 2 PUT behaves as the claim states: a missing id
answers 404 NotFound with the store unchanged, and on a present id the update
succeeds with every record stored under the id carrying sent false. Variant 3
PUT (also cited by the claim) performs no existence check: whenever the
request time parses, it answers success and writes the record with sent false
under the id, creating the record when the id is absent. -/
theorem update_reset_sent (s2 : StoreV2) (s3 : StoreV3) (id title body : String)
    (topic : Option String) (time : Option DateFields) (image : Option String) :
    (hasKey s2 id = false →
      putScheduleV2 s2 id title body topic time = (⟨404, false⟩, s2)) ∧
    (hasKey s2 id = true →
      (putScheduleV2 s2 id title body topic time).1 = ⟨200, true⟩ ∧
      ∀ r : RecV2, (id, r) ∈ (putScheduleV2 s2 id title body topic time).2 →
        r.sent = false) ∧
    (∀ nt : DateFields, normalizeTime time = some nt →
      (putScheduleV3 s3 id title body topic time image).1 = ⟨200, true⟩ ∧
      (id, (⟨id, title, body, topic.getD "all", nt, false, image⟩ : RecV3)) ∈
        (putScheduleV3 s3 id title body topic time image).2 ∧
      ∀ r : RecV3, (id, r) ∈ (putScheduleV3 s3 id title body topic time image).2 →
        r.sent = false) := by
  refine ⟨?_, ?_, ?_⟩
  · intro hab
    unfold putScheduleV2
    rw [if_neg (by rw [hab]; exact Bool.false_ne_true)]
  · intro hpres
    unfold putScheduleV2
    rw [if_pos hpres]
    refine ⟨rfl, ?_⟩
    intro r hr
    have hval := mem_setKey_self_val s2 id _ r hr
    rw [hval]
  · intro nt hnt
    unfold putScheduleV3
    rw [hnt]
    refine ⟨rfl, mem_setKey_self s3 id _, ?_⟩
    intro r hr
    have hval := mem_setKey_self_val s3 id _ r hr
    rw [hval]

/-- Claim C7, witness: the amended theorem evaluated on a missing id and a
present id for variant 2 and on a missing id for variant 3. -/
theorem update_reset_sent_witness :
    hasKey ([] : StoreV2) "x" = false ∧
    putScheduleV2 [] "x" "t" "b" none none = (⟨404, false⟩, []) ∧
    hasKey [("x", (⟨"x", "o", "o", "all", none, true⟩ : RecV2))] "x" = true ∧
    (putScheduleV2 [("x", ⟨"x", "o", "o", "all", none, true⟩)] "x" "t" "b"
      none none).1 = ⟨200, true⟩ ∧
    (putScheduleV3 [] "x" "t" "b" none (some ⟨0, 3, 1, 0, 0, 0, 0, 0⟩) none).1 =
      ⟨200, true⟩ := by
  have h1 := update_reset_sent ([] : StoreV2) ([] : StoreV3) "x" "t" "b" none none none
  have h2 := update_reset_sent [("x", (⟨"x", "o", "o", "all", none, true⟩ : RecV2))]
    ([] : StoreV3) "x" "t" "b" none (some ⟨0, 3, 1, 0, 0, 0, 0, 0⟩) none
  exact ⟨by decide, h1.1 (by decide), by decide, (h2.2.1 (by decide)).1,
    (h2.2.2 (toISOString 0) (by decide)).1⟩

/-- Claim C8, counterexample: the claim states a batch containing one item
with an unparsable time fails as a whole. Variant 2 bulk-create stores the
raw time with no parsing or validation: the concrete singleton batch whose
item has an unparsable time (none) succeeds and returns the created record. -/
theorem bulk_unparsable_time_succeeds_cex :
    (bulkScheduleV2 (fun _ => true) (fun _ => true) (fun _ => "id0")
      [⟨"t", "b", none, none⟩] [] []).1 =
      ⟨200, true, [⟨"id0", "t", "b", "all", none, false⟩]⟩ := rfl

/-- Claim C8, amended: bulk-create processes items sequentially; when every
store write succeeds, the whole accumulated created set is returned -
independently of whether any item time parses, since variant 2 stores the raw
time unvalidated - and when the store write of some item k fails, the entire
batch request fails with status 500. -/
theorem bulk_sequential_or_500 (ids : Nat → String) (items : List ItemV2)
    (s : StoreV2) (h : List HistoryEntryV2) (hne : items ≠ []) (k : Nat)
    (hk : k < items.length) :
    (bulkScheduleV2 (fun _ => true) (fun _ => true) ids items s h).1 =
      ⟨200, true, mkBulkRecs ids 0 items⟩ ∧
    (bulkScheduleV2 (fun j => decide (j ≠ k)) (fun _ => true) ids items s h).1.status = 500 ∧
    (bulkScheduleV2 (fun j => decide (j ≠ k)) (fun _ => true) ids items s h).1.success = false := by
  have hne' : items.isEmpty = false := by
    cases items with
    | nil => exact absurd rfl hne
    | cons a l => rfl
  have hguard : ¬ (items.isEmpty = true) := by
    rw [hne']
    exact Bool.false_ne_true
  constructor
  · unfold bulkScheduleV2
    rw [if_neg hguard]
    rw [bulkGo_ok (fun _ => true) (fun _ => true) ids (fun _ => rfl) (fun _ => rfl)
      items 0 s h]
    rw [List.nil_append]
  · have hfail := bulkGo_fail (fun j => decide (j ≠ k)) (fun _ => true) ids k
      (by simp) (fun j hj => by simp; omega) (fun j hj => rfl)
      items 0 s h [] (Nat.zero_le k) (by omega)
    unfold bulkScheduleV2
    rw [if_neg hguard]
    exact ⟨hfail.2.1, hfail.1⟩

/-- Claim C8, witness: a two-item batch with unparsable times succeeds whole
when writes succeed, and fails whole with 500 when the write of item 1 fails. -/
theorem bulk_sequential_or_500_witness :
    (bulkScheduleV2 (fun _ => true) (fun _ => true) (fun _ => "k")
        [(⟨"t", "b", none, none⟩ : ItemV2), ⟨"u", "v", none, none⟩] [] []).1 =
      ⟨200, true,
        mkBulkRecs (fun _ => "k") 0 [⟨"t", "b", none, none⟩, ⟨"u", "v", none, none⟩]⟩ ∧
    (bulkScheduleV2 (fun j => decide (j ≠ 1)) (fun _ => true) (fun _ => "k")
        [(⟨"t", "b", none, none⟩ : ItemV2), ⟨"u", "v", none, none⟩] [] []).1.status = 500 := by
  have h := bulk_sequential_or_500 (fun _ => "k")
    [⟨"t", "b", none, none⟩, ⟨"u", "v", none, none⟩] [] [] (by decide) 1 (by decide)
  exact ⟨h.1, h.2.1⟩

/-- Claim C9, confirmed: schedule creation writes the schedule record before
the history entry and is not atomic across the two writes: when the schedule
write succeeds and the history append fails, variant 1 POST /schedule answers
the error envelope (status 400, success false) and appends no history, yet
the newly created schedule record is in the store; and when a bulk-create
batch fails at the store write of item k, every item before k remains stored
although the whole request answers failure. -/
theorem create_two_writes_not_atomic (id title body : String)
    (topic : Option String) (time : Option DateFields) (nt : DateFields)
    (hnt : normalizeTime time = some nt) (s : StoreV1) (h : List SchedHistoryV1)
    (ids : Nat → String) (items : List ItemV2) (s2 : StoreV2)
    (h2 : List HistoryEntryV2) (k : Nat) (hk : k < items.length) :
    ((postScheduleV1 true false id title body topic time s h).1.1 = ⟨400, false⟩ ∧
      (postScheduleV1 true false id title body topic time s h).2.2 = h ∧
      (id, (⟨id, title, body, topic.getD "all", nt, false⟩ : RecV1)) ∈
        (postScheduleV1 true false id title body topic time s h).2.1) ∧
    ((bulkScheduleV2 (fun j => decide (j ≠ k)) (fun _ => true) ids items s2 h2).1.success =
        false ∧
      ∀ j, j < k →
        hasKey (bulkScheduleV2 (fun j => decide (j ≠ k)) (fun _ => true) ids items s2 h2).2.1
          (ids j) = true) := by
  have hguard : ¬ (items.isEmpty = true) := by
    cases items with
    | nil => rw [List.length_nil] at hk; exact absurd hk (by omega)
    | cons a l => exact Bool.false_ne_true
  have hfail := bulkGo_fail (fun j => decide (j ≠ k)) (fun _ => true) ids k
    (by simp) (fun j hj => by simp; omega) (fun j hj => rfl)
    items 0 s2 h2 [] (Nat.zero_le k) (by omega)
  constructor
  · unfold postScheduleV1
    rw [hnt]
    exact ⟨rfl, rfl, mem_setKey_self s id _⟩
  · constructor
    · unfold bulkScheduleV2
      rw [if_neg hguard]
      exact hfail.1
    · intro j hj
      unfold bulkScheduleV2
      rw [if_neg hguard]
      exact hfail.2.2.2 j (Nat.zero_le j) hj

/-- Claim C9, witness: a concrete create with failing history append answers
the error envelope, and a concrete two-item bulk batch failing at item 1
keeps item 0 in the store. -/
theorem create_two_writes_not_atomic_witness :
    (postScheduleV1 true false "a" "T" "B" none (some ⟨0, 3, 1, 0, 0, 0, 0, 0⟩)
        [] []).1.1 = ⟨400, false⟩ ∧
    hasKey (bulkScheduleV2 (fun j => decide (j ≠ 1)) (fun _ => true) (fun _ => "k")
        [(⟨"t", "b", none, none⟩ : ItemV2), ⟨"u", "v", none, none⟩] [] []).2.1 "k" =
      true := by
  have h := create_two_writes_not_atomic "a" "T" "B" none
    (some ⟨0, 3, 1, 0, 0, 0, 0, 0⟩) (toISOString 0) (by decide) [] []
    (fun _ => "k") [⟨"t", "b", none, none⟩, ⟨"u", "v", none, none⟩] [] [] 1 (by decide)
  exact ⟨h.1.1, h.2.2 0 (by decide)⟩

theorem epochMillis_setOffset (f : DateFields) (o : Int) :
    epochMillis { f with offsetMin := o } =
      epochMillis f + f.offsetMin * 60000 - o * 60000 := by
  unfold epochMillis
  dsimp only
  omega

/-- Claim C10, confirmed: for every instant t, the IST display rendering
produced by getISTISOString denotes the same absolute instant as t: its
calendar fields are exactly the UTC clock reading of t shifted forward by 5
hours 30 minutes (19800000 ms) with offset +05:30 (330 minutes) in place of
the Z suffix, and parsing the result back as ISO-8601 yields t again. In the
code the rendering feeds only console.log output and the timeIST display
field of history entries, never the due comparison, which reads task.time
(src/server.js:39, 426). -/
theorem getISTISOString_same_instant (t : Nat) :
    getISTISOString t = { toISOString (t + 19800000) with offsetMin := 330 } ∧
    (getISTISOString t).offsetMin = 330 ∧
    epochMillis (getISTISOString t) = (t : Int) := by
  refine ⟨rfl, rfl, ?_⟩
  unfold getISTISOString
  rw [epochMillis_setOffset]
  rw [epochMillis_toISOString]
  have hoff : (toISOString (t + 19800000)).offsetMin = 0 := rfl
  rw [hoff]
  push_cast
  ring
